import Mathlib

/-!
Shallow embedding of `pulp/server/managers/repo/unit_association_query.py`
(class `RepoUnitAssociationQueryManager`), together with theorems checking the
specification's claims about it.

Records stored in the association collection are modelled as `AssocRec`
structures, unit records of the per-type collections as `UnitRec`, and pymongo
cursors/streams as Lean lists (in the order the cursor yields documents).
Python generators become list-producing functions; a generator that can die
with an uncaught exception is modelled as returning the list of elements it
yielded before the exception together with an `Option` describing the
exception, so that partial output remains observable.
-/

namespace UnitAssociationQuery

/-- An association document from the `repo_content_units` collection, with the
fields the query manager reads (`repo_id`, `unit_type_id`, `unit_id`) plus the
`created` timestamp (modelled as a `Nat`) and `owner_id`, which lets two
duplicate associations for the same `(unit_type_id, unit_id)` pair be distinct
records. -/
structure AssocRec where
  repo_id : String
  unit_type_id : String
  unit_id : String
  owner_id : String
  created : Nat
  deriving DecidableEq, Repr

/-- The deduplication key computed at line 286 of the source:
`'+'.join((unit_association['unit_type_id'], unit_association['unit_id']))`. -/
def associationId (a : AssocRec) : String :=
  a.unit_type_id ++ "+" ++ a.unit_id

/-- The logical identity key of an association for dedup purposes:
the `(type_id, unit_id)` pair. -/
def pairKey (a : AssocRec) : String × String :=
  (a.unit_type_id, a.unit_id)

/-- The loop of `_unit_associations_no_duplicates`, carrying the
`previously_generated_association_ids` seen-set (modelled as a list of key
strings): a record whose `associationId` is already in the seen-set is
dropped, otherwise it is yielded and its key added. -/
def noDupsFrom (seen : List String) : List AssocRec → List AssocRec
  | [] => []
  | a :: rest =>
    if associationId a ∈ seen then
      noDupsFrom seen rest
    else
      a :: noDupsFrom (associationId a :: seen) rest

/-- `_unit_associations_no_duplicates(iterator)`: the seen-set starts empty. -/
def unitAssociationsNoDuplicates (l : List AssocRec) : List AssocRec :=
  noDupsFrom [] l

/-- A unit document from a per-type unit collection: its `_id` (the unit id)
plus an opaque payload standing for the remaining type-specific fields. -/
structure UnitRec where
  _id : String
  payload : String
  deriving DecidableEq, Repr

/-- The record yielded by `_merged_units`: the association record with the
unit record attached as its `metadata` attribute (line 386). -/
structure MergedRec where
  association : AssocRec
  metadata : UnitRec
  deriving DecidableEq, Repr

/-- Lookup in `unit_associations_by_id`, the `OrderedDict` built at line 138
from the (possibly deduplicated) association stream, keyed by `unit_id`.
For a duplicated key a Python dict keeps the last value written, hence the
lookup finds the last record of the stream with the given `unit_id`. -/
def assocLookup (assocs : List AssocRec) (k : String) : Option AssocRec :=
  assocs.reverse.find? (fun a => a.unit_id == k)

/-- `_merged_units(unit_associations_by_id, associated_units)` (lines 373-388).
For each unit the association is looked up with
`unit_associations_by_id[unit['_id']]`; a missing key raises `KeyError`, which
is uncaught and terminates the generator. The result is the list of merged
records yielded before any such exception, paired with `some missing_id` when
the exception occurred and `none` otherwise. -/
def mergedUnits (assocs : List AssocRec) : List UnitRec → List MergedRec × Option String
  | [] => ([], none)
  | u :: rest =>
    match assocLookup assocs u._id with
    | none => ([], some u._id)
    | some a =>
      let r := mergedUnits assocs rest
      (⟨a, u⟩ :: r.1, r.2)

/-- Lookup in `associated_units_by_id`, the dict built at line 368 of
`_association_ordered_units` from the materialized unit stream, keyed by
`_id` (last value wins on duplicate keys, as for any Python dict). -/
def unitsById (units : List UnitRec) (k : String) : Option UnitRec :=
  units.reverse.find? (fun u => u._id == k)

/-- `_association_ordered_units(associated_unit_ids, associated_units)`
(lines 353-371): re-emits units following the requested id order via
`yield associated_units_by_id[unit_id]`; an id absent from the dict raises
`KeyError`, uncaught, terminating the generator. Result: units yielded
before any exception, paired with `some missing_id` if one occurred. -/
def associationOrderedUnits (ids : List String) (units : List UnitRec) :
    List UnitRec × Option String :=
  match ids with
  | [] => ([], none)
  | i :: rest =>
    match unitsById units i with
    | none => ([], some i)
    | some u =>
      let r := associationOrderedUnits rest units
      (u :: r.1, r.2)

/-- The loop state of `_with_skip_and_limit` (lines 337-351): `generated`
counts yielded elements, `skipped` counts skipped elements. The loop body:
`if limit and generated - skipped == limit: raise StopIteration()` (ends the
generator), `if skip and skipped < skip: skipped += 1; continue`, else yield
and `generated += 1`. Python truthiness makes `limit=0`/`skip=0` behave as
absent, so `None` is modelled as `0`. Python's possibly-negative
`generated - skipped` is compared only against a non-zero `limit`, for which
truncated subtraction agrees (both sides are unequal when `generated <
skipped`). -/
def withSkipAndLimitAux (skip limit : Nat) : List α → Nat → Nat → List α
  | [], _, _ => []
  | x :: rest, generated, skipped =>
    if limit ≠ 0 ∧ generated - skipped = limit then []
    else if skip ≠ 0 ∧ skipped < skip then
      withSkipAndLimitAux skip limit rest generated (skipped + 1)
    else
      x :: withSkipAndLimitAux skip limit rest (generated + 1) skipped

/-- `_with_skip_and_limit(iterator, skip, limit)` with both counters at 0. -/
def withSkipAndLimit (l : List α) (skip limit : Nat) : List α :=
  withSkipAndLimitAux skip limit l 0 0

/-- An element of the stream produced at line 143 of `get_units`: either an
individual unit record, or a whole per-type cursor object. -/
inductive ChainElem (α : Type) where
  | record (u : α)
  | cursorObj (c : List α)
  deriving DecidableEq, Repr

/-- Line 143-144 of `get_units`:
`itertools.chain(self._associated_units_by_type_cursor(...) for unit_type_id
in unit_type_ids)`. `itertools.chain` is applied to a SINGLE argument — the
generator expression — so it concatenates one iterable and yields that
iterable's elements, which are the per-type cursor objects themselves, not
the unit records inside them. -/
def unitsGeneratorChain (cursors : List (List UnitRec)) : List (ChainElem UnitRec) :=
  cursors.map ChainElem.cursorObj

/-- Modelled from the spec: "Concatenates the per-type cursors in ascending
type-id order into one logical sequence (type boundaries are invisible to the
consumer)" — the stream the spec describes yields the individual unit
records of all cursors, flattened in order. Stated over the same `ChainElem`
type for comparison with `unitsGeneratorChain`. -/
def chainedUnitRecordsSpec (cursors : List (List UnitRec)) : List (ChainElem UnitRec) :=
  cursors.flatten.map ChainElem.record

/-- `pymongo.ASCENDING`. -/
def SORT_ASCENDING : Int := 1

/-- `pymongo.DESCENDING`. -/
def SORT_DESCENDING : Int := -1

/-- Lines 259-266 of `_unit_associations_cursor`: `sort =
criteria.association_sort or []` (so `None` and the empty list both become
`[]`), then `('created', ASCENDING)` is inserted at position 0 unless that
exact pair is already a member, and the result is passed to `cursor.sort`. -/
def buildAssociationSort (association_sort : Option (List (String × Int))) :
    List (String × Int) :=
  let sort := association_sort.getD []
  if ("created", SORT_ASCENDING) ∈ sort then sort
  else ("created", SORT_ASCENDING) :: sort

/-- A Python value passed as `skip` or `limit`: `None`, an `int`, or a value
of some non-`int` type. -/
inductive PyOptInt where
  | noneV
  | intV (n : Int)
  | nonIntV
  deriving DecidableEq, Repr

/-- The asserted precondition at lines 334-335 of `_with_skip_and_limit`:
`(isinstance(v, int) and v >= 0) or v is None`. -/
def skipLimitValid : PyOptInt → Bool
  | .noneV => true
  | .intV n => decide (0 ≤ n)
  | .nonIntV => false

/-- A storage-visible event during `get_units`, or the assertion failure of
`_with_skip_and_limit`. -/
inductive QueryEvent where
  | findAssociations
  | distinctUnitTypeIds
  | assertionFailure
  deriving DecidableEq, Repr

/-- The sequence of events of `get_units(repo_id, criteria, as_generator =
False)` up to the point where the skip/limit assertions of
`_with_skip_and_limit` are evaluated. `_unit_associations_cursor` issues
`collection.find` (line 257) as soon as `get_units` starts (line 133), and
the cursor is fully iterated at line 138; if `criteria.type_ids` is empty,
`_unit_type_ids_for_repo` issues another `find` and a `distinct` (lines
233-234). Only then is the `_with_skip_and_limit` generator created (line
146) — its `assert` statements (lines 334-335) do not run until the pipeline
is first iterated by `list(...)` at line 156, at which point they raise
`AssertionError` if skip or limit is negative or not an `int`. -/
def getUnitsEventsUntilValidation (c_type_ids : List String)
    (skip limit : PyOptInt) : List QueryEvent :=
  [QueryEvent.findAssociations]
    ++ (if c_type_ids.isEmpty then
          [QueryEvent.findAssociations, QueryEvent.distinctUnitTypeIds]
        else [])
    ++ (if skipLimitValid skip && skipLimitValid limit then []
        else [QueryEvent.assertionFailure])

/-- `_unit_type_ids_for_repo(repo_id)` (lines 221-236): a cursor over the
associations of the repository is created, the result of
`unit_associations.distinct('unit_type_id')` is computed and DISCARDED
(line 234 — the return value is not bound), and the comprehension at line 236
iterates the original, non-distinct cursor, yielding `unit_type_id` once per
association document. -/
def unitTypeIdsForRepo (assocs : List AssocRec) (repo_id : String) : List String :=
  (assocs.filter (fun a => a.repo_id == repo_id)).map (fun a => a.unit_type_id)

/-- Lexicographic comparison of strings as lists of code points: the order
Python's `sorted()` uses on strings. -/
def charListLe : List Char → List Char → Bool
  | [], _ => true
  | _ :: _, [] => false
  | a :: as, b :: bs =>
    if a.toNat < b.toNat then true
    else if b.toNat < a.toNat then false
    else charListLe as bs

/-- String comparison used to model `sorted()`. -/
def strLe (a b : String) : Bool :=
  charListLe a.data b.data

/-- Insert into an already-sorted list, before the first element that is
greater or equal (a stable insertion). -/
def sortedInsert (a : String) : List String → List String
  | [] => [a]
  | b :: l => if strLe a b then a :: b :: l else b :: sortedInsert a l

/-- `sorted()` on a list of strings: stable ascending insertion sort. -/
def sortedStrings : List String → List String
  | [] => []
  | a :: l => sortedInsert a (sortedStrings l)

/-- Lines 140-141 of `get_units`: `unit_type_ids = criteria.type_ids or
self._unit_type_ids_for_repo(repo_id)` followed by `unit_type_ids =
sorted(unit_type_ids)` (a stable ascending lexicographic sort). -/
def getUnitsTypeIds (assocs : List AssocRec) (repo_id : String)
    (c_type_ids : List String) : List String :=
  let unit_type_ids :=
    if c_type_ids.isEmpty then unitTypeIdsForRepo assocs repo_id else c_type_ids
  sortedStrings unit_type_ids

/-- The fields of `UnitAssociationCriteria` that the modelled code paths
read or write. -/
structure Criteria where
  type_ids : List String
  association_sort : Option (List (String × Int))
  skip : PyOptInt
  limit : PyOptInt
  remove_duplicates : Bool
  deriving DecidableEq, Repr

/-- The caller's criteria object as it stands after `_unit_associations_cursor`
(called from `get_units`, line 133) has run. At line 259, `sort =
criteria.association_sort or []` binds `sort` to the very list object held by
the criteria whenever `association_sort` is a non-empty list (a falsy `None`
or `[]` yields a fresh `[]` instead); `sort.insert(0, ('created', ASCENDING))`
at line 264 then mutates the caller's list in place unless the pair is
already present. -/
def criteriaAfterAssociationsCursor (c : Criteria) : Criteria :=
  match c.association_sort with
  | none => c
  | some l =>
    if l.isEmpty then c
    else if ("created", SORT_ASCENDING) ∈ l then c
    else { c with association_sort := some (("created", SORT_ASCENDING) :: l) }

/-- The caller's criteria object after `get_units_by_type(repo_id, type_id,
criteria)`: line 215 assigns `criteria.type_ids = [type_id]` on the caller's
object before delegating to `get_units`, which applies
`criteriaAfterAssociationsCursor`. -/
def criteriaAfterGetUnitsByType (c : Criteria) (type_id : String) : Criteria :=
  criteriaAfterAssociationsCursor { c with type_ids := [type_id] }

theorem noDupsFrom_sublist (seen : List String) (l : List AssocRec) :
    (noDupsFrom seen l).Sublist l := by
  induction l generalizing seen with
  | nil => simp [noDupsFrom]
  | cons a rest ih =>
    by_cases h : associationId a ∈ seen
    · simp only [noDupsFrom, if_pos h]
      exact List.Sublist.cons a (ih seen)
    · simp only [noDupsFrom, if_neg h]
      exact List.Sublist.cons₂ a (ih (associationId a :: seen))

theorem noDupsFrom_filter_of_mem_seen (seen : List String) (l : List AssocRec)
    (k : String) (hk : k ∈ seen) :
    (noDupsFrom seen l).filter (fun a => associationId a == k) = [] := by
  induction l generalizing seen with
  | nil => simp [noDupsFrom]
  | cons a rest ih =>
    by_cases h : associationId a ∈ seen
    · simp only [noDupsFrom, if_pos h]
      exact ih seen hk
    · have hak : ¬ (associationId a == k) = true := by
        simp only [beq_iff_eq]
        intro he
        exact h (he ▸ hk)
      simp only [noDupsFrom, if_neg h, List.filter_cons, if_neg hak]
      exact ih (associationId a :: seen) (List.mem_cons_of_mem _ hk)

theorem noDupsFrom_filter_of_not_mem_seen (seen : List String) (l : List AssocRec)
    (k : String) (hk : k ∉ seen) :
    (noDupsFrom seen l).filter (fun a => associationId a == k) =
      (l.filter (fun a => associationId a == k)).take 1 := by
  induction l generalizing seen with
  | nil => simp [noDupsFrom]
  | cons a rest ih =>
    by_cases h : associationId a ∈ seen
    · have hak : ¬ (associationId a == k) = true := by
        simp only [beq_iff_eq]
        intro he
        exact hk (he ▸ h)
      simp only [noDupsFrom, if_pos h, List.filter_cons, if_neg hak]
      exact ih seen hk
    · by_cases hek : associationId a = k
      · subst hek
        have h2 : (noDupsFrom (associationId a :: seen) rest).filter
            (fun b => associationId b == associationId a) = [] :=
          noDupsFrom_filter_of_mem_seen _ _ _ (List.mem_cons_self _ seen)
        simp [noDupsFrom, h, h2, List.filter_cons]
      · have hak : ¬ (associationId a == k) = true := by
          simp only [beq_iff_eq]; exact hek
        simp only [noDupsFrom, if_neg h, List.filter_cons, if_neg hak]
        exact ih (associationId a :: seen) (by
          intro hc
          rcases List.mem_cons.mp hc with hc | hc
          · exact hek hc.symm
          · exact hk hc)

theorem unitsById_mem (units : List UnitRec) (k : String) (u : UnitRec)
    (h : unitsById units k = some u) : u ∈ units :=
  List.mem_reverse.mp (List.mem_of_find?_eq_some h)

theorem associationOrderedUnits_no_fabrication (ids : List String)
    (units : List UnitRec) :
    ∀ u ∈ (associationOrderedUnits ids units).1, u ∈ units := by
  induction ids with
  | nil => simp [associationOrderedUnits]
  | cons i rest ih =>
    intro u hu
    cases hL : unitsById units i with
    | none => simp [associationOrderedUnits, hL] at hu
    | some v =>
      simp only [associationOrderedUnits, hL] at hu
      rcases List.mem_cons.mp hu with rfl | hu
      · exact unitsById_mem units i u hL
      · exact ih u hu

/-- C1: at `skip=1, limit=1` over the three-element stream `[a,b,c]`, the
skip/limit adapter `_with_skip_and_limit` yields `[b, c]`, not the claimed
sub-sequence `input[1:2] = [b]`: the limit test compares the count of yielded
elements against `limit` after subtracting the skipped count, which was never
added to it, so `skip + limit` elements are yielded instead of `limit`. -/
theorem C1_skip_limit_failing_input :
    withSkipAndLimit ["a", "b", "c"] 1 1 = ["b", "c"] ∧
    withSkipAndLimit ["a", "b", "c"] 1 1 ≠ ["b"] := by
  decide

/-- C2: the stream built at line 143 of `get_units` applies `itertools.chain`
to a single generator of per-type cursors, so its elements are the cursor
objects themselves — one element per unit type — and not the individual unit
records of the flattened, boundary-free sequence the spec describes. -/
theorem C2_chain_yields_cursor_objects :
    unitsGeneratorChain [[⟨"a", "pa"⟩], [⟨"b", "pb"⟩, ⟨"c", "pc"⟩]] =
      [ChainElem.cursorObj [⟨"a", "pa"⟩],
       ChainElem.cursorObj [⟨"b", "pb"⟩, ⟨"c", "pc"⟩]] ∧
    unitsGeneratorChain [[⟨"a", "pa"⟩], [⟨"b", "pb"⟩, ⟨"c", "pc"⟩]] ≠
      chainedUnitRecordsSpec [[⟨"a", "pa"⟩], [⟨"b", "pb"⟩, ⟨"c", "pc"⟩]] := by
  decide

/-- C3 counterexample: with the association map holding only unit id `"a"`
and the unit stream `[b-record, a-record]`, the merger raises `KeyError` on
the first record and emits nothing at all — in particular the merged record
for `"a"` never appears — refuting the claim that the record is merely
logged, skipped, and the stream continues with the remaining records. -/
theorem C3_counterexample :
    mergedUnits [⟨"r", "t", "a", "o", 0⟩] [⟨"b", "pb"⟩, ⟨"a", "pa"⟩] =
      ([], some "b") ∧
    (⟨⟨"r", "t", "a", "o", 0⟩, ⟨"a", "pa"⟩⟩ : MergedRec) ∉
      (mergedUnits [⟨"r", "t", "a", "o", 0⟩] [⟨"b", "pb"⟩, ⟨"a", "pa"⟩]).1 := by
  decide

/-- C3 (amended): when a unit record's id is missing from the
unit-id-to-association map, `_merged_units` raises an uncaught `KeyError` at
that record: the units before it are merged and yielded, and nothing after it
is ever emitted — the error is fatal for the remainder of the stream, with no
logging and no per-record skip. -/
theorem C3_merge_key_error_fatal (assocs : List AssocRec) (pre post : List UnitRec)
    (bad : UnitRec)
    (hpre : ∀ u ∈ pre, (assocLookup assocs u._id).isSome)
    (hbad : assocLookup assocs bad._id = none) :
    mergedUnits assocs (pre ++ bad :: post) =
      ((mergedUnits assocs pre).1, some bad._id) := by
  induction pre with
  | nil => simp [mergedUnits, hbad]
  | cons u rest ih =>
    have hu : (assocLookup assocs u._id).isSome := hpre u (by simp)
    obtain ⟨a, ha⟩ := Option.isSome_iff_exists.mp hu
    have ih' := ih (fun v hv => hpre v (List.mem_cons_of_mem u hv))
    simp only [List.cons_append, mergedUnits, ha, List.append_eq]
    rw [ih']

theorem C3_merge_key_error_fatal_witness :
    mergedUnits [⟨"r", "t", "a", "o", 0⟩] [⟨"a", "pa"⟩, ⟨"b", "pb"⟩, ⟨"c", "pc"⟩] =
      ([⟨⟨"r", "t", "a", "o", 0⟩, ⟨"a", "pa"⟩⟩], some "b") := by
  have h := C3_merge_key_error_fatal [⟨"r", "t", "a", "o", 0⟩] [⟨"a", "pa"⟩]
    [⟨"c", "pc"⟩] ⟨"b", "pb"⟩ (by decide) (by decide)
  simpa using h

/-- C4 counterexample: with requested ids `["b", "a"]` and the materialized
unit stream holding only the unit with id `"a"`, the reconciler raises
`KeyError` on `"b"` and emits nothing — it does not silently skip the absent
id and emit the present unit, refuting the claim that absent ids are skipped
without raising any error. -/
theorem C4_counterexample :
    associationOrderedUnits ["b", "a"] [⟨"a", "pa"⟩] = ([], some "b") ∧
    associationOrderedUnits ["b", "a"] [⟨"a", "pa"⟩] ≠ ([⟨"a", "pa"⟩], none) := by
  decide

/-- C4 (amended): a requested unit id absent from the materialized unit map
makes `_association_ordered_units` raise an uncaught `KeyError` at that id:
the ids before it are emitted, in requested order, and nothing after it is
emitted. The stage does never fabricate records — every emitted unit is one
of the materialized units. -/
theorem C4_reconciler_key_error_fatal (units : List UnitRec) (pre post : List String)
    (bad : String)
    (hpre : ∀ i ∈ pre, (unitsById units i).isSome)
    (hbad : unitsById units bad = none) :
    associationOrderedUnits (pre ++ bad :: post) units =
      ((associationOrderedUnits pre units).1, some bad) ∧
    ∀ u ∈ (associationOrderedUnits pre units).1, u ∈ units := by
  refine ⟨?_, associationOrderedUnits_no_fabrication pre units⟩
  induction pre with
  | nil => simp [associationOrderedUnits, hbad]
  | cons i rest ih =>
    have hi : (unitsById units i).isSome := hpre i (by simp)
    obtain ⟨u, hu⟩ := Option.isSome_iff_exists.mp hi
    have ih' := ih (fun j hj => hpre j (List.mem_cons_of_mem i hj))
    simp only [List.cons_append, associationOrderedUnits, hu, List.append_eq]
    rw [ih']

theorem C4_reconciler_key_error_fatal_witness :
    associationOrderedUnits ["c", "a", "b", "a"] [⟨"a", "pa"⟩, ⟨"c", "pc"⟩] =
      ([⟨"c", "pc"⟩, ⟨"a", "pa"⟩], some "b") ∧
    ∀ u ∈ (associationOrderedUnits ["c", "a"] [⟨"a", "pa"⟩, ⟨"c", "pc"⟩]).1,
      u ∈ [(⟨"a", "pa"⟩ : UnitRec), ⟨"c", "pc"⟩] := by
  have h := C4_reconciler_key_error_fatal [⟨"a", "pa"⟩, ⟨"c", "pc"⟩] ["c", "a"]
    ["a"] "b" (by decide) (by decide)
  simpa using h

/-- C5 counterexample: calling `get_units` with `skip = -1` (and a non-empty
`criteria.type_ids`) issues the `find` against the association collection
first and only afterwards fails the skip/limit assertion — the first event of
the execution is a storage access, not the invalid-argument failure, refuting
the claim that the engine fails fast before any storage access. -/
theorem C5_counterexample :
    getUnitsEventsUntilValidation ["rpm"] (PyOptInt.intV (-1)) PyOptInt.noneV =
      [QueryEvent.findAssociations, QueryEvent.assertionFailure] ∧
    (getUnitsEventsUntilValidation ["rpm"] (PyOptInt.intV (-1)) PyOptInt.noneV).head? ≠
      some QueryEvent.assertionFailure := by
  decide

/-- C5 (amended): for every negative or non-integer skip or limit, the engine
does raise a failure (an `AssertionError` from `_with_skip_and_limit`), but
only at first iteration of the result stream, after the association-collection
`find` (and the discovery `find`/`distinct`, when `type_ids` is empty) has
already been issued: the first event is always the association `find` and the
assertion failure is always the last. -/
theorem C5_validation_after_storage (c_type_ids : List String)
    (skip limit : PyOptInt)
    (h : ¬(skipLimitValid skip = true ∧ skipLimitValid limit = true)) :
    (getUnitsEventsUntilValidation c_type_ids skip limit).head? =
      some QueryEvent.findAssociations ∧
    (getUnitsEventsUntilValidation c_type_ids skip limit).getLast? =
      some QueryEvent.assertionFailure := by
  have hb : (skipLimitValid skip && skipLimitValid limit) = false := by
    cases hs : skipLimitValid skip <;> cases hl : skipLimitValid limit <;> simp_all
  unfold getUnitsEventsUntilValidation
  rw [hb]
  refine ⟨rfl, ?_⟩
  cases c_type_ids.isEmpty <;> simp

theorem C5_validation_after_storage_witness :
    (getUnitsEventsUntilValidation [] PyOptInt.nonIntV (PyOptInt.intV 0)).head? =
      some QueryEvent.findAssociations ∧
    (getUnitsEventsUntilValidation [] PyOptInt.nonIntV (PyOptInt.intV 0)).getLast? =
      some QueryEvent.assertionFailure :=
  C5_validation_after_storage [] PyOptInt.nonIntV (PyOptInt.intV 0) (by decide)

/-- C6 counterexample: the stream `[(type "x+y", unit "z", created 0),
(type "x", unit "y+z", created 1)]` is sorted ascending by `created`, its two
records have distinct `(type_id, unit_id)` keys, yet the deduplicator's
output contains zero records (not exactly one) for the key `("x", "y+z")`,
because both records share the concatenated seen-key `"x+y+z"`. -/
theorem C6_counterexample :
    ([⟨"r", "x+y", "z", "o1", 0⟩, ⟨"r", "x", "y+z", "o2", 1⟩] :
        List AssocRec).Pairwise (fun a b => a.created ≤ b.created) ∧
    pairKey ⟨"r", "x+y", "z", "o1", 0⟩ ≠ pairKey ⟨"r", "x", "y+z", "o2", 1⟩ ∧
    (unitAssociationsNoDuplicates
        [⟨"r", "x+y", "z", "o1", 0⟩, ⟨"r", "x", "y+z", "o2", 1⟩]).countP
      (fun c => pairKey c == ("x", "y+z")) = 0 := by
  decide

/-- C6 (amended): for every association stream sorted ascending by `created`
whose concatenated `type_id + '+' + unit_id` seen-keys collide only on equal
`(type_id, unit_id)` pairs, the deduplicator's output is an order-preserving
subsequence of the input that contains, for each input record's
`(type_id, unit_id)` key, exactly one record — one whose `created` is no
larger than that of any record with the same key. -/
theorem C6_dedup_correct (l : List AssocRec)
    (hsorted : l.Pairwise (fun a b => a.created ≤ b.created))
    (hinj : ∀ a ∈ l, ∀ b ∈ l, associationId a = associationId b →
      pairKey a = pairKey b) :
    (unitAssociationsNoDuplicates l).Sublist l ∧
    ∀ a ∈ l, ∃ b ∈ unitAssociationsNoDuplicates l,
      pairKey b = pairKey a ∧ b.created ≤ a.created ∧
      (unitAssociationsNoDuplicates l).countP
        (fun c => pairKey c == pairKey a) = 1 := by
  refine ⟨noDupsFrom_sublist [] l, ?_⟩
  intro a ha
  have hfilter := noDupsFrom_filter_of_not_mem_seen [] l (associationId a)
    (List.not_mem_nil _)
  have hmemf : a ∈ l.filter (fun b => associationId b == associationId a) :=
    List.mem_filter.mpr ⟨ha, by simp⟩
  obtain ⟨b, t, hbt⟩ : ∃ b t,
      l.filter (fun b => associationId b == associationId a) = b :: t := by
    cases hfe : l.filter (fun b => associationId b == associationId a) with
    | nil => exact absurd (hfe ▸ hmemf) (List.not_mem_nil a)
    | cons b t => exact ⟨b, t, rfl⟩
  have houtf : (unitAssociationsNoDuplicates l).filter
      (fun c => associationId c == associationId a) = [b] := by
    rw [unitAssociationsNoDuplicates, hfilter, hbt]
    rfl
  have hbmem : b ∈ unitAssociationsNoDuplicates l := by
    have hb : b ∈ (unitAssociationsNoDuplicates l).filter
        (fun c => associationId c == associationId a) := by
      rw [houtf]; exact List.mem_cons_self b []
    exact List.mem_of_mem_filter hb
  have hbf : b ∈ l.filter (fun b => associationId b == associationId a) := by
    rw [hbt]; exact List.mem_cons_self b t
  have hbl : b ∈ l := List.mem_of_mem_filter hbf
  have hbk : associationId b = associationId a := by
    have := (List.mem_filter.mp hbf).2
    exact beq_iff_eq.mp this
  have hpk : pairKey b = pairKey a := hinj b hbl a ha hbk
  have hble : b.created ≤ a.created := by
    have hpf := hsorted.filter (fun b => associationId b == associationId a)
    rw [hbt] at hpf
    rcases List.mem_cons.mp (hbt ▸ hmemf) with h | h
    · exact h ▸ Nat.le_refl _
    · exact (List.pairwise_cons.mp hpf).1 a h
  have hfc : (unitAssociationsNoDuplicates l).filter
        (fun c => pairKey c == pairKey a) =
      (unitAssociationsNoDuplicates l).filter
        (fun c => associationId c == associationId a) := by
    apply List.filter_congr
    intro c hc
    by_cases hpc : pairKey c = pairKey a
    · have h1 : c.unit_type_id = a.unit_type_id := congrArg Prod.fst hpc
      have h2 : c.unit_id = a.unit_id := congrArg Prod.snd hpc
      have haid : associationId c = associationId a := by
        unfold associationId
        rw [h1, h2]
      simp [hpc, haid]
    · have hcl : c ∈ l := (noDupsFrom_sublist [] l).subset hc
      have haid : associationId c ≠ associationId a := fun he =>
        hpc (hinj c hcl a ha he)
      simp [hpc, haid]
  have hcount : (unitAssociationsNoDuplicates l).countP
      (fun c => pairKey c == pairKey a) = 1 := by
    rw [List.countP_eq_length_filter, hfc, houtf]
    rfl
  exact ⟨b, hbmem, hpk, hble, hcount⟩

theorem C6_dedup_correct_witness :
    (unitAssociationsNoDuplicates
        [⟨"r", "t", "u", "o1", 0⟩, ⟨"r", "t", "u", "o2", 1⟩,
         ⟨"r", "s", "v", "o3", 2⟩]).Sublist
      [⟨"r", "t", "u", "o1", 0⟩, ⟨"r", "t", "u", "o2", 1⟩,
       ⟨"r", "s", "v", "o3", 2⟩] ∧
    ∀ a ∈ ([⟨"r", "t", "u", "o1", 0⟩, ⟨"r", "t", "u", "o2", 1⟩,
        ⟨"r", "s", "v", "o3", 2⟩] : List AssocRec),
      ∃ b ∈ unitAssociationsNoDuplicates
          [⟨"r", "t", "u", "o1", 0⟩, ⟨"r", "t", "u", "o2", 1⟩,
           ⟨"r", "s", "v", "o3", 2⟩],
        pairKey b = pairKey a ∧ b.created ≤ a.created ∧
        (unitAssociationsNoDuplicates
            [⟨"r", "t", "u", "o1", 0⟩, ⟨"r", "t", "u", "o2", 1⟩,
             ⟨"r", "s", "v", "o3", 2⟩]).countP
          (fun c => pairKey c == pairKey a) = 1 :=
  C6_dedup_correct
    [⟨"r", "t", "u", "o1", 0⟩, ⟨"r", "t", "u", "o2", 1⟩, ⟨"r", "s", "v", "o3", 2⟩]
    (by decide) (by decide)

/-- C7 counterexample: with the caller-specified sort
`[('owner_id', ASCENDING), ('created', ASCENDING)]`, the membership test at
line 263 finds `('created', ASCENDING)` already present, so nothing is
inserted and the first sort key of the specification handed to `cursor.sort`
is `('owner_id', ASCENDING)` — not `('created', ASCENDING)` — refuting the
claim that `created` ascending is always the primary key. -/
theorem C7_counterexample :
    buildAssociationSort
        (some [("owner_id", SORT_ASCENDING), ("created", SORT_ASCENDING)]) =
      [("owner_id", SORT_ASCENDING), ("created", SORT_ASCENDING)] ∧
    (buildAssociationSort
        (some [("owner_id", SORT_ASCENDING), ("created", SORT_ASCENDING)])).head? ≠
      some ("created", SORT_ASCENDING) := by
  decide

/-- C7 (amended): `('created', ascending)` is prepended as the first sort key
only when the caller's `association_sort` does not already contain that exact
pair; a caller sort that already contains it — possibly not in first
position — is passed to `cursor.sort` unchanged, so the first key is then the
caller's own first key. -/
theorem C7_created_first_unless_present (s : List (String × Int))
    (h : ("created", SORT_ASCENDING) ∉ s) :
    buildAssociationSort (some s) = ("created", SORT_ASCENDING) :: s := by
  unfold buildAssociationSort
  simp [h]

theorem C7_created_first_unless_present_witness :
    buildAssociationSort (some [("owner_id", SORT_ASCENDING)]) =
      [("created", SORT_ASCENDING), ("owner_id", SORT_ASCENDING)] :=
  C7_created_first_unless_present [("owner_id", SORT_ASCENDING)] (by decide)

/-- C8: `_unit_type_ids_for_repo` discards the result of the `distinct` call
and iterates the raw association cursor, so a repository with two
associations of the same type `"rpm"` yields `["rpm", "rpm"]` — the type
appears once per association, not exactly once, and the `rpm` unit collection
is then queried once per list entry by the per-type cursor loop. -/
theorem C8_type_ids_contain_duplicates :
    getUnitsTypeIds [⟨"r", "rpm", "u1", "o1", 0⟩, ⟨"r", "rpm", "u2", "o2", 1⟩]
        "r" [] = ["rpm", "rpm"] ∧
    getUnitsTypeIds [⟨"r", "rpm", "u1", "o1", 0⟩, ⟨"r", "rpm", "u2", "o2", 1⟩]
        "r" [] ≠ ["rpm"] ∧
    getUnitsTypeIds [⟨"r", "zeta", "u1", "o1", 0⟩, ⟨"r", "alpha", "u2", "o2", 1⟩]
        "r" [] = ["alpha", "zeta"] := by
  decide

/-- C9 counterexample: `get_units_by_type` on a criteria whose `type_ids` is
`["x"]` overwrites that field with the requested type `["y"]` on the caller's
object (line 215), so the criteria is not left unchanged by query
execution. -/
theorem C9_counterexample :
    criteriaAfterGetUnitsByType
        ⟨["x"], none, PyOptInt.noneV, PyOptInt.noneV, true⟩ "y" ≠
      ⟨["x"], none, PyOptInt.noneV, PyOptInt.noneV, true⟩ := by
  decide

/-- C9 (amended): `get_units` (and hence `get_units_across_types`) leaves the
caller's criteria unchanged when `association_sort` is `None` — though a
non-empty `association_sort` lacking `('created', ascending)` would be
mutated in place — while `get_units_by_type` always overwrites the caller's
`criteria.type_ids` with the single requested type before delegating. -/
theorem C9_criteria_mutation (c : Criteria) (t : String)
    (h : c.association_sort = none) :
    criteriaAfterAssociationsCursor c = c ∧
    criteriaAfterGetUnitsByType c t = { c with type_ids := [t] } := by
  constructor
  · unfold criteriaAfterAssociationsCursor
    rw [h]
  · unfold criteriaAfterGetUnitsByType criteriaAfterAssociationsCursor
    simp [h]

theorem C9_criteria_mutation_witness :
    criteriaAfterAssociationsCursor
        ⟨["z"], none, PyOptInt.noneV, PyOptInt.noneV, false⟩ =
      ⟨["z"], none, PyOptInt.noneV, PyOptInt.noneV, false⟩ ∧
    criteriaAfterGetUnitsByType
        ⟨["z"], none, PyOptInt.noneV, PyOptInt.noneV, false⟩ "w" =
      ⟨["w"], none, PyOptInt.noneV, PyOptInt.noneV, false⟩ :=
  C9_criteria_mutation ⟨["z"], none, PyOptInt.noneV, PyOptInt.noneV, false⟩ "w" rfl

/-- C10: two associations with distinct `(type_id, unit_id)` identity keys —
type `"a+b"` with unit `"c"` versus type `"a"` with unit `"b+c"` — produce
the same concatenated dedup key `"a+b+c"`, and the deduplicator therefore
drops the later association even though it is not a duplicate of the
earlier one. -/
theorem C10_dedup_key_collision :
    pairKey ⟨"r", "a+b", "c", "o1", 0⟩ ≠ pairKey ⟨"r", "a", "b+c", "o2", 1⟩ ∧
    associationId ⟨"r", "a+b", "c", "o1", 0⟩ =
      associationId ⟨"r", "a", "b+c", "o2", 1⟩ ∧
    unitAssociationsNoDuplicates
        [⟨"r", "a+b", "c", "o1", 0⟩, ⟨"r", "a", "b+c", "o2", 1⟩] =
      [⟨"r", "a+b", "c", "o1", 0⟩] := by
  decide

end UnitAssociationQuery
